import Mathlib

/-!
Shallow embedding of `src/assembly_code/examples/LedsSwitches_C-Lang/src/LedsSwitches_C-Lang.c`.

The C program is:

  #define GPIO_SWs    0x80001400
  #define GPIO_LEDs   0x80001404
  #define GPIO_INOUT  0x80001408
  #define READ_GPIO(dir) (*(volatile unsigned *)dir)
  #define WRITE_GPIO(dir, value) { (*(volatile unsigned *)dir) = (value); }
  int main ( void )
  {
      int En_Value=0xFFFF, switches_value;
      WRITE_GPIO(GPIO_INOUT, En_Value);
      while (1) {
          switches_value = READ_GPIO(GPIO_SWs);
          switches_value = switches_value >> 16;
          WRITE_GPIO(GPIO_LEDs, switches_value);
      }
      return(0);
  }

We model the program as a deterministic small-step machine over the program
points of `main`.  The hardware is modelled by an input stream `sw : Nat → Nat`
giving the value the 32-bit switch register holds at each step (reduced mod
2^32 when read, since the register is 32 bits wide).  Each step may emit one
memory-mapped I/O event (a read or a write of an address).  Machine integers
are `Nat` with explicit reduction mod 2^32; the signed `int` variable
`switches_value` is represented by its two's-complement 32-bit word.
-/

namespace LedsSwitches

/-- Address of the switch input register (`#define GPIO_SWs 0x80001400`). -/
def GPIO_SWs : Nat := 0x80001400

/-- Address of the LED output register (`#define GPIO_LEDs 0x80001404`). -/
def GPIO_LEDs : Nat := 0x80001404

/-- Address of the GPIO direction register (`#define GPIO_INOUT 0x80001408`). -/
def GPIO_INOUT : Nat := 0x80001408

/-- Value of the C variable `int En_Value = 0xFFFF`. -/
def En_Value : Nat := 0xFFFF

/-- Semantics of the C statement `switches_value = switches_value >> 16` where
`switches_value` has type `int`: on the 32-bit target this is an arithmetic
(sign-extending) right shift of the two's-complement word `w`.  The low 16
result bits are `w / 2^16`; the upper 16 result bits are copies of bit 31 of
`w`: zero when `w < 2^31`, all ones (an added `0xFFFF0000`) otherwise. -/
def sra32_16 (w : Nat) : Nat :=
  if w < 2^31 then w / 2^16 else w / 2^16 + 0xFFFF0000

/-- A memory-mapped I/O event: a read or a write of a 32-bit value at an
address. -/
inductive Event : Type
  | read : Nat → Nat → Event
  | write : Nat → Nat → Event
deriving DecidableEq

/-- Program points of `main`. -/
inductive PC : Type
  | entry      -- about to execute `WRITE_GPIO(GPIO_INOUT, En_Value)`
  | loopTop    -- about to execute `switches_value = READ_GPIO(GPIO_SWs)`
  | afterRead  -- about to execute `switches_value = switches_value >> 16`
  | afterShift -- about to execute `WRITE_GPIO(GPIO_LEDs, switches_value)`
  | ret        -- at `return(0)` (never reached)
deriving DecidableEq

/-- The machine state: the program counter and the current 32-bit word held by
the C variable `switches_value`. -/
structure CState : Type where
  pc : PC
  switches_value : Nat
deriving DecidableEq

/-- The initial state: at the entry of `main`, with `switches_value` holding an
arbitrary junk word (the C variable is declared uninitialized). -/
def init (junk : Nat) : CState := ⟨PC.entry, junk⟩

/-- One small step of `main`.  `swReg` is the value the switch register holds
at this instant (the hardware side); the result is the next state together
with the memory-mapped I/O event performed, if any. -/
def step (swReg : Nat) (s : CState) : CState × Option Event :=
  match s.pc with
  | PC.entry =>
      (⟨PC.loopTop, s.switches_value⟩, some (Event.write GPIO_INOUT En_Value))
  | PC.loopTop =>
      (⟨PC.afterRead, swReg % 2^32⟩, some (Event.read GPIO_SWs (swReg % 2^32)))
  | PC.afterRead =>
      (⟨PC.afterShift, sra32_16 s.switches_value⟩, none)
  | PC.afterShift =>
      (⟨PC.loopTop, s.switches_value⟩, some (Event.write GPIO_LEDs s.switches_value))
  | PC.ret =>
      (⟨PC.ret, s.switches_value⟩, none)

/-- Run the machine for `n` steps from the initial state, collecting the trace
of memory-mapped I/O events.  `sw n` is the value the switch register holds at
step `n`. -/
def run (sw : Nat → Nat) (junk : Nat) : Nat → CState × List Event
  | 0 => (init junk, [])
  | n+1 =>
      ((step (sw n) (run sw junk n).1).1,
       (run sw junk n).2 ++ ((step (sw n) (run sw junk n).1).2).toList)

/-- The value of a switch-register read event, if the event is one. -/
def readSW : Event → Option Nat
  | Event.read a v => if a = GPIO_SWs then some v else none
  | Event.write _ _ => none

/-- The value of a LED-register write event, if the event is one. -/
def writeLED : Event → Option Nat
  | Event.write a v => if a = GPIO_LEDs then some v else none
  | Event.read _ _ => none

/-- The value of a direction-register write event, if the event is one. -/
def writeDIR : Event → Option Nat
  | Event.write a v => if a = GPIO_INOUT then some v else none
  | Event.read _ _ => none

/-- The sequence of values returned by reads of the switch register in a
trace. -/
def readVals (tr : List Event) : List Nat := tr.filterMap readSW

/-- The sequence of values written to the LED register in a trace. -/
def ledVals (tr : List Event) : List Nat := tr.filterMap writeLED

/-- The sequence of values written to the direction register in a trace. -/
def dirVals (tr : List Event) : List Nat := tr.filterMap writeDIR

/-- Whether an event is within the program's memory-mapped I/O footprint: the
only read address is the switch register and the only write addresses are the
LED register and the direction register. -/
def okEvent : Event → Bool
  | Event.read a _ => a == GPIO_SWs
  | Event.write a _ => a == GPIO_LEDs || a == GPIO_INOUT

/-- The events emitted by the loop body during the first `k` iterations:
iteration `i` reads the switch register at step `3*i+1` and writes the shifted
value to the LED register. -/
def body (sw : Nat → Nat) : Nat → List Event
  | 0 => []
  | k+1 => body sw k ++
      [Event.read GPIO_SWs (sw (3*k+1) % 2^32),
       Event.write GPIO_LEDs (sra32_16 (sw (3*k+1) % 2^32))]

/-- The whole trace after `k` complete iterations: the single direction-register
write followed by the loop-body events. -/
def iterTrace (sw : Nat → Nat) (k : Nat) : List Event :=
  Event.write GPIO_INOUT En_Value :: body sw k

/-- The word held by `switches_value` at the top of the loop before iteration
`k`: junk before the first iteration, otherwise the last shifted value. -/
def svAt (sw : Nat → Nat) (junk : Nat) : Nat → Nat
  | 0 => junk
  | k+1 => sra32_16 (sw (3*k+1) % 2^32)

theorem run_succ (sw : Nat → Nat) (junk n : Nat) :
    run sw junk (n+1) =
      ((step (sw n) (run sw junk n).1).1,
       (run sw junk n).2 ++ ((step (sw n) (run sw junk n).1).2).toList) := rfl

theorem run_loopTop (sw : Nat → Nat) (junk k : Nat) :
    run sw junk (3*k+1) = (⟨PC.loopTop, svAt sw junk k⟩, iterTrace sw k) := by
  induction k with
  | zero =>
      rw [show 3*0+1 = 0+1 from rfl, run_succ]
      simp [run, init, step, iterTrace, body, svAt]
  | succ k ih =>
      rw [show 3*(k+1)+1 = (3*k+1)+1+1+1 from by ring,
        run_succ, run_succ, run_succ, ih]
      simp [step, iterTrace, body, svAt]

theorem run_afterRead (sw : Nat → Nat) (junk k : Nat) :
    run sw junk (3*k+2) =
      (⟨PC.afterRead, sw (3*k+1) % 2^32⟩,
       iterTrace sw k ++ [Event.read GPIO_SWs (sw (3*k+1) % 2^32)]) := by
  rw [show 3*k+2 = (3*k+1)+1 from by ring, run_succ, run_loopTop]
  simp [step]

theorem run_afterShift (sw : Nat → Nat) (junk k : Nat) :
    run sw junk (3*k+3) =
      (⟨PC.afterShift, sra32_16 (sw (3*k+1) % 2^32)⟩,
       iterTrace sw k ++ [Event.read GPIO_SWs (sw (3*k+1) % 2^32)]) := by
  rw [show 3*k+3 = (3*k+2)+1 from by ring, run_succ, run_afterRead]
  simp [step]

theorem readVals_iterTrace (sw : Nat → Nat) (k : Nat) :
    readVals (iterTrace sw k) =
      (List.range k).map (fun i => sw (3*i+1) % 2^32) := by
  induction k with
  | zero => simp [iterTrace, body, readVals, readSW, writeLED,
      GPIO_SWs, GPIO_INOUT]
  | succ k ih =>
      have h := ih
      simp only [iterTrace, body, readVals, List.filterMap_cons,
        List.filterMap_append] at h ⊢
      simp [h.symm, List.range_succ, readSW, GPIO_SWs, GPIO_LEDs, GPIO_INOUT,
        readVals]
      simp_all [readVals, readSW, GPIO_SWs, GPIO_INOUT]

theorem ledVals_iterTrace (sw : Nat → Nat) (k : Nat) :
    ledVals (iterTrace sw k) =
      (List.range k).map (fun i => sra32_16 (sw (3*i+1) % 2^32)) := by
  induction k with
  | zero => simp [iterTrace, body, ledVals, writeLED, GPIO_LEDs, GPIO_INOUT]
  | succ k ih =>
      simp only [iterTrace, body, ledVals, List.filterMap_cons,
        List.filterMap_append] at ih ⊢
      simp_all [List.range_succ, writeLED, GPIO_SWs, GPIO_LEDs, GPIO_INOUT]

theorem dirVals_iterTrace (sw : Nat → Nat) (k : Nat) :
    dirVals (iterTrace sw k) = [En_Value] := by
  induction k with
  | zero => simp [iterTrace, body, dirVals, writeDIR, GPIO_INOUT]
  | succ k ih =>
      simp only [iterTrace, body, dirVals, List.filterMap_cons,
        List.filterMap_append] at ih ⊢
      simp_all [writeDIR, GPIO_SWs, GPIO_LEDs, GPIO_INOUT]

theorem dirVals_body (sw : Nat → Nat) (k : Nat) : dirVals (body sw k) = [] := by
  induction k with
  | zero => simp [body, dirVals]
  | succ k ih =>
      simp only [body, dirVals, List.filterMap_append] at ih ⊢
      simp_all [writeDIR, GPIO_SWs, GPIO_LEDs, GPIO_INOUT]

theorem ledVals_read_append (tr : List Event) (a v : Nat) :
    ledVals (tr ++ [Event.read a v]) = ledVals tr := by
  simp [ledVals, List.filterMap_append, writeLED]

theorem readVals_read_append (tr : List Event) (v : Nat) :
    readVals (tr ++ [Event.read GPIO_SWs v]) = readVals tr ++ [v] := by
  simp [readVals, List.filterMap_append, readSW]

theorem dirVals_read_append (tr : List Event) (a v : Nat) :
    dirVals (tr ++ [Event.read a v]) = dirVals tr := by
  simp [dirVals, List.filterMap_append, writeDIR]

/-- Every step index `n ≥ 1` falls in one of the three phases of iteration
`k = (n-1)/3`. -/
theorem phase_cases (n : Nat) (h : 1 ≤ n) :
    ∃ k, n = 3*k+1 ∨ n = 3*k+2 ∨ n = 3*k+3 :=
  ⟨(n-1)/3, by omega⟩

/-- A step from a state not at `return(0)` stays away from `return(0)`. -/
theorem step_pc_ne_ret (i : Nat) (s : CState) (h : s.pc ≠ PC.ret) :
    ((step i s).1).pc ≠ PC.ret := by
  cases s with
  | mk pc sv => cases pc <;> simp_all [step]

/-- Every event a single step emits is within the I/O footprint. -/
theorem step_event_ok (i : Nat) (s : CState) :
    ∀ e ∈ ((step i s).2).toList, okEvent e = true := by
  cases s with
  | mk pc sv => cases pc <;> simp [step, okEvent, GPIO_SWs, GPIO_LEDs, GPIO_INOUT]

/-- The LED value appended by one more complete loop iteration is the
arithmetic right shift of the switch word read in that iteration. -/
theorem ledVals_iter_append (sw : Nat → Nat) (junk k : Nat) :
    ledVals (run sw junk (3*k+4)).2 =
      ledVals (run sw junk (3*k+1)).2 ++ [sra32_16 (sw (3*k+1) % 2^32)] := by
  rw [show 3*k+4 = 3*(k+1)+1 from by ring, run_loopTop, run_loopTop]
  simp [ledVals_iterTrace, List.range_succ]

/-- An arithmetic right shift of a word with bit 31 clear is the logical
shift, and its upper 16 bits are zero. -/
theorem sra32_16_of_lt (v : Nat) (h : v < 2^31) :
    sra32_16 v = v >>> 16 ∧ sra32_16 v < 2^16 := by
  rw [Nat.shiftRight_eq_div_pow]
  simp only [sra32_16, if_pos h, eq_self_iff_true, true_and]
  omega

/-- An arithmetic right shift of a word with bit 31 set fills the upper 16
bits with ones. -/
theorem sra32_16_of_ge (v : Nat) (h1 : 2^31 ≤ v) (h2 : v < 2^32) :
    sra32_16 v = v / 2^16 + 0xFFFF0000 ∧ (sra32_16 v) >>> 16 = 0xFFFF ∧
    sra32_16 v < 2^32 := by
  have hn : ¬ v < 2^31 := by omega
  rw [Nat.shiftRight_eq_div_pow]
  simp only [sra32_16, if_neg hn, eq_self_iff_true, true_and]
  omega

/-- Bit 31 of a 32-bit word decides which of the two shapes the arithmetic
shift result takes: upper 16 bits all zero, or all one. -/
theorem sra32_16_upper (v : Nat) (hv : v < 2^32) :
    (Nat.testBit v 31 = false ∧ (sra32_16 v) >>> 16 = 0) ∨
    (Nat.testBit v 31 = true ∧ (sra32_16 v) >>> 16 = 0xFFFF) := by
  rw [Nat.testBit_to_div_mod, Nat.shiftRight_eq_div_pow]
  by_cases h : v < 2^31
  · left
    simp only [sra32_16, if_pos h, decide_eq_false_iff_not]
    omega
  · right
    simp only [sra32_16, if_neg h, decide_eq_true_eq]
    omega

/-- Claim C1, counterexample: at `V = 0x80000000` (a 32-bit value whose lower
16 bits are zero) held by the switch register at the first read, the LED value
written that iteration is `0xFFFF8000`, not the logical shift
`V >>> 16 = 0x8000`: the C variable is a signed `int`, so the shift
sign-extends. -/
theorem c1_counterexample :
    (0x80000000 : Nat) < 2^32 ∧ 0x80000000 % 2^16 = 0 ∧
    ledVals (run (fun _ => 0x80000000) 0 4).2 = [0xFFFF8000] ∧
    (0xFFFF8000 : Nat) ≠ 0x80000000 >>> 16 := by decide

/-- Claim C1 (amended): for every 32-bit value `V` with its lower 16 bits zero
and bit 31 clear that the switch register holds when read in a loop iteration,
the value written to the LED register that iteration is `V` logically shifted
right by 16 bits, with upper 16 bits all zero.  (When bit 31 of `V` is set the
shift instead sign-extends, filling the upper 16 bits with ones.) -/
theorem c1_led_zero_extended (sw : Nat → Nat) (junk k V : Nat)
    (hV : V < 2^31) (hlow : V % 2^16 = 0) (hsw : sw (3*k+1) = V) :
    ledVals (run sw junk (3*k+4)).2 =
      ledVals (run sw junk (3*k+1)).2 ++ [V >>> 16] ∧ V >>> 16 < 2^16 := by
  have hmod : V % 2^32 = V := Nat.mod_eq_of_lt (by omega)
  have h := ledVals_iter_append sw junk k
  rw [hsw, hmod] at h
  obtain ⟨he, hlt⟩ := sra32_16_of_lt V hV
  exact ⟨by rw [h, he], by rw [← he]; exact hlt⟩

/-- Claim C1 witness: the amended statement evaluated at `V = 0x50000`. -/
theorem c1_witness :
    (0x50000 : Nat) < 2^31 ∧ 0x50000 % 2^16 = 0 ∧
    ledVals (run (fun _ => 0x50000) 0 4).2 =
      ledVals (run (fun _ => 0x50000) 0 1).2 ++ [0x50000 >>> 16] ∧
    (0x50000 : Nat) >>> 16 < 2^16 :=
  ⟨by decide, by decide,
   (c1_led_zero_extended (fun _ => 0x50000) 0 0 0x50000 (by decide) (by decide)
     rfl).1,
   (c1_led_zero_extended (fun _ => 0x50000) 0 0 0x50000 (by decide) (by decide)
     rfl).2⟩

/-- Claim C2, counterexample: when the switch register holds `0xFFFF0000` at a
read, the value written to the LED register that iteration is `0xFFFFFFFF`
(the arithmetic shift sign-extends), not `0x0000FFFF`. -/
theorem c2_counterexample :
    ledVals (run (fun _ => 0xFFFF0000) 0 4).2 = [0xFFFFFFFF] ∧
    (0xFFFFFFFF : Nat) ≠ 0x0000FFFF := by decide

/-- Claim C2 (amended): if the switch register holds `0xFFFF0000` when read in
a loop iteration, the value written to the LED register that iteration is
`0xFFFFFFFF`. -/
theorem c2_led_all_ones (sw : Nat → Nat) (junk k : Nat)
    (hsw : sw (3*k+1) = 0xFFFF0000) :
    ledVals (run sw junk (3*k+4)).2 =
      ledVals (run sw junk (3*k+1)).2 ++ [0xFFFFFFFF] := by
  have h := ledVals_iter_append sw junk k
  rw [hsw] at h
  rw [h, show sra32_16 (0xFFFF0000 % 2^32) = 0xFFFFFFFF from by decide]

/-- Claim C2 witness: the amended statement evaluated on the constant
`0xFFFF0000` input stream. -/
theorem c2_witness :
    ledVals (run (fun _ => 0xFFFF0000) 1 4).2 =
      ledVals (run (fun _ => 0xFFFF0000) 1 1).2 ++ [0xFFFFFFFF] :=
  c2_led_all_ones (fun _ => 0xFFFF0000) 1 0 rfl

/-- Claim C3, counterexample: the single startup write to the direction
register stores `0xFFFF` (only the lower 16 bits set; bit 31 clear), not a
mask with all 32 bits set. -/
theorem c3_counterexample :
    (run (fun _ => 0) 0 1).2 = [Event.write GPIO_INOUT 0xFFFF] ∧
    Nat.testBit 0xFFFF 31 = false ∧ (0xFFFF : Nat) ≠ 0xFFFFFFFF := by decide

/-- Claim C3 (amended): the single startup write to the direction register
stores the 32-bit mask `En_Value = 0x0000FFFF`, whose lower 16 bits are all
set and whose upper 16 bits are all clear. -/
theorem c3_dir_mask (sw : Nat → Nat) (junk : Nat) :
    (run sw junk 1).2 = [Event.write GPIO_INOUT En_Value] ∧
    En_Value = 0xFFFF ∧
    (∀ i, i < 16 → Nat.testBit En_Value i = true) ∧
    (∀ i, 16 ≤ i → Nat.testBit En_Value i = false) := by
  refine ⟨?_, rfl, by decide, fun i hi => ?_⟩
  · rw [show (1:Nat) = 0+1 from rfl, run_succ]
    simp [run, init, step]
  · have hlt : En_Value < 2^i :=
      lt_of_lt_of_le (by decide) (Nat.pow_le_pow_right (by decide) hi)
    exact Nat.testBit_lt_two_pow hlt

/-- Claim C3 witness: the amended statement evaluated at bit positions 3 and
20 on a concrete run. -/
theorem c3_witness :
    (run (fun _ => 9) 7 1).2 = [Event.write GPIO_INOUT En_Value] ∧
    Nat.testBit En_Value 3 = true ∧ Nat.testBit En_Value 20 = false :=
  ⟨(c3_dir_mask (fun _ => 9) 7).1,
   (c3_dir_mask (fun _ => 9) 7).2.2.1 3 (by decide),
   (c3_dir_mask (fun _ => 9) 7).2.2.2 20 (by decide)⟩

/-- Claim C4: in every execution the direction register is written exactly
once, as the very first memory-mapped I/O event (hence before the first read
of the switch register), and it is never written again once the polling loop
has been entered. -/
theorem c4_dir_written_once (sw : Nat → Nat) (junk n : Nat) (h : 1 ≤ n) :
    ∃ rest, (run sw junk n).2 = Event.write GPIO_INOUT En_Value :: rest ∧
      dirVals rest = [] ∧ dirVals (run sw junk n).2 = [En_Value] := by
  obtain ⟨k, hk | hk | hk⟩ := phase_cases n h
  · subst hk
    rw [run_loopTop]
    exact ⟨body sw k, rfl, dirVals_body sw k, dirVals_iterTrace sw k⟩
  · subst hk
    rw [run_afterRead]
    refine ⟨body sw k ++ [Event.read GPIO_SWs (sw (3*k+1) % 2^32)],
      by simp [iterTrace], ?_, ?_⟩
    · rw [dirVals_read_append, dirVals_body]
    · rw [dirVals_read_append, dirVals_iterTrace]
  · subst hk
    rw [run_afterShift]
    refine ⟨body sw k ++ [Event.read GPIO_SWs (sw (3*k+1) % 2^32)],
      by simp [iterTrace], ?_, ?_⟩
    · rw [dirVals_read_append, dirVals_body]
    · rw [dirVals_read_append, dirVals_iterTrace]

/-- Claim C4 witness: the statement evaluated after five steps of a concrete
run. -/
theorem c4_witness :
    ∃ rest, (run (fun _ => 3) 2 5).2 = Event.write GPIO_INOUT En_Value :: rest ∧
      dirVals rest = [] ∧ dirVals (run (fun _ => 3) 2 5).2 = [En_Value] :=
  c4_dir_written_once (fun _ => 3) 2 5 (by decide)

/-- Claim C5: the polling loop never terminates: for every input stream
(including the all-zero and all-`0xFFFFFFFF` streams) and every number of
steps, execution never reaches the `return(0)` statement of `main`, and from
the first step onwards the program counter stays inside the loop forever. -/
theorem c5_never_terminates (sw : Nat → Nat) (junk n : Nat) :
    ((run sw junk n).1).pc ≠ PC.ret ∧
    (1 ≤ n → ((run sw junk n).1).pc = PC.loopTop ∨
      ((run sw junk n).1).pc = PC.afterRead ∨
      ((run sw junk n).1).pc = PC.afterShift) := by
  rcases Nat.eq_zero_or_pos n with h0 | h1
  · subst h0
    exact ⟨by simp [run, init], by omega⟩
  · obtain ⟨k, hk | hk | hk⟩ := phase_cases n h1 <;> subst hk <;>
      simp [run_loopTop, run_afterRead, run_afterShift]

/-- Claim C5 witness: the statement evaluated after two steps of the constant
`0xFFFFFFFF` input stream. -/
theorem c5_witness :
    ((run (fun _ => 0xFFFFFFFF) 0 2).1).pc ≠ PC.ret ∧
    (((run (fun _ => 0xFFFFFFFF) 0 2).1).pc = PC.loopTop ∨
      ((run (fun _ => 0xFFFFFFFF) 0 2).1).pc = PC.afterRead ∨
      ((run (fun _ => 0xFFFFFFFF) 0 2).1).pc = PC.afterShift) :=
  ⟨(c5_never_terminates (fun _ => 0xFFFFFFFF) 0 2).1,
   (c5_never_terminates (fun _ => 0xFFFFFFFF) 0 2).2 (by decide)⟩

/-- Claim C6: if the switch register holds `0x12340000` when read in a loop
iteration, the value written to the LED register that iteration is
`0x00001234`. -/
theorem c6_led_1234 (sw : Nat → Nat) (junk k : Nat)
    (hsw : sw (3*k+1) = 0x12340000) :
    ledVals (run sw junk (3*k+4)).2 =
      ledVals (run sw junk (3*k+1)).2 ++ [0x1234] := by
  have h := ledVals_iter_append sw junk k
  rw [hsw] at h
  rw [h, show sra32_16 (0x12340000 % 2^32) = 0x1234 from by decide]

/-- Claim C6 witness: the statement evaluated on the constant `0x12340000`
input stream. -/
theorem c6_witness :
    ledVals (run (fun _ => 0x12340000) 0 4).2 =
      ledVals (run (fun _ => 0x12340000) 0 1).2 ++ [0x1234] :=
  c6_led_1234 (fun _ => 0x12340000) 0 0 rfl

/-- Claim C7: the program's memory-mapped I/O footprint: in every run, every
event either reads the switch register or writes the LED or direction
register; in particular the switch register is never written. -/
theorem c7_io_footprint (sw : Nat → Nat) (junk n : Nat) :
    (∀ e ∈ (run sw junk n).2, okEvent e = true) ∧
    (∀ v : Nat, Event.write GPIO_SWs v ∉ (run sw junk n).2) := by
  have hmain : ∀ e ∈ (run sw junk n).2, okEvent e = true := by
    induction n with
    | zero => simp [run]
    | succ n ih =>
        intro e he
        rw [run_succ] at he
        rcases List.mem_append.1 he with h1 | h2
        · exact ih e h1
        · exact step_event_ok (sw n) (run sw junk n).1 e h2
  refine ⟨hmain, fun v hv => ?_⟩
  have hbad := hmain _ hv
  simp [okEvent, GPIO_SWs, GPIO_LEDs, GPIO_INOUT] at hbad

/-- Claim C7 witness: the statement evaluated on the first event of a concrete
run. -/
theorem c7_witness :
    okEvent (Event.write GPIO_INOUT En_Value) = true ∧
    Event.write GPIO_SWs 0 ∉ (run (fun _ => 1) 0 1).2 :=
  ⟨(c7_io_footprint (fun _ => 1) 0 1).1 (Event.write GPIO_INOUT En_Value)
     (by decide),
   (c7_io_footprint (fun _ => 1) 0 1).2 0⟩

/-- Claim C8: because `switches_value` has signed type `int`, the shift is
arithmetic: for every 32-bit `V` with bit 31 set that the switch register
holds when read, the LED value written that iteration is
`V / 2^16 + 0xFFFF0000` (no 32-bit wrap occurs), whose upper 16 bits are all
ones. -/
theorem c8_arithmetic_shift (sw : Nat → Nat) (junk k V : Nat)
    (hV : V < 2^32) (hbit : Nat.testBit V 31 = true) (hsw : sw (3*k+1) = V) :
    ledVals (run sw junk (3*k+4)).2 =
      ledVals (run sw junk (3*k+1)).2 ++ [V / 2^16 + 0xFFFF0000] ∧
    (V / 2^16 + 0xFFFF0000) >>> 16 = 0xFFFF ∧
    V / 2^16 + 0xFFFF0000 < 2^32 := by
  have hge : 2^31 ≤ V := by
    rw [Nat.testBit_to_div_mod] at hbit
    simp only [decide_eq_true_eq] at hbit
    omega
  have hmod : V % 2^32 = V := Nat.mod_eq_of_lt hV
  have h := ledVals_iter_append sw junk k
  rw [hsw, hmod] at h
  obtain ⟨he, hu, hlt⟩ := sra32_16_of_ge V hge hV
  refine ⟨by rw [h, he], ?_, ?_⟩
  · rw [← he]; exact hu
  · rw [← he]; exact hlt

/-- Claim C8 witness: the statement evaluated at `V = 0xABCD0000`. -/
theorem c8_witness :
    (0xABCD0000 : Nat) < 2^32 ∧ Nat.testBit 0xABCD0000 31 = true ∧
    ledVals (run (fun _ => 0xABCD0000) 0 4).2 =
      ledVals (run (fun _ => 0xABCD0000) 0 1).2 ++
        [0xABCD0000 / 2^16 + 0xFFFF0000] ∧
    ((0xABCD0000 / 2^16 + 0xFFFF0000 : Nat)) >>> 16 = 0xFFFF :=
  ⟨by decide, by decide,
   (c8_arithmetic_shift (fun _ => 0xABCD0000) 0 0 0xABCD0000 (by decide)
     (by decide) rfl).1,
   (c8_arithmetic_shift (fun _ => 0xABCD0000) 0 0 0xABCD0000 (by decide)
     (by decide) rfl).2.1⟩

/-- Claim C9: the program carries no state between loop iterations: for any
two executions (over any input streams and any initial junk contents of the
uninitialized variable) whose switch-read value sequences agree at every step
count, the LED-write value sequences agree at every step count. -/
theorem c9_output_determined_by_reads (sw sw' : Nat → Nat) (junk junk' : Nat)
    (h : ∀ n, readVals (run sw junk n).2 = readVals (run sw' junk' n).2) :
    ∀ n, ledVals (run sw junk n).2 = ledVals (run sw' junk' n).2 := by
  have hsw : ∀ i, sw (3*i+1) % 2^32 = sw' (3*i+1) % 2^32 := by
    intro i
    have h2 := h (3*i+2)
    rw [run_afterRead, run_afterRead, readVals_read_append,
      readVals_read_append, readVals_iterTrace, readVals_iterTrace] at h2
    have h3 := (List.append_inj' h2 rfl).2
    simpa using h3
  have hfun : (fun i => sra32_16 (sw (3*i+1) % 2^32)) =
      (fun i => sra32_16 (sw' (3*i+1) % 2^32)) :=
    funext fun i => by rw [hsw i]
  intro n
  rcases Nat.eq_zero_or_pos n with h0 | h1
  · subst h0; rfl
  · obtain ⟨k, hk | hk | hk⟩ := phase_cases n h1
    · subst hk
      rw [run_loopTop, run_loopTop, ledVals_iterTrace, ledVals_iterTrace, hfun]
    · subst hk
      rw [run_afterRead, run_afterRead, ledVals_read_append,
        ledVals_read_append, ledVals_iterTrace, ledVals_iterTrace, hfun]
    · subst hk
      rw [run_afterShift, run_afterShift, ledVals_read_append,
        ledVals_read_append, ledVals_iterTrace, ledVals_iterTrace, hfun]

/-- Claim C9 witness: the statement applied to two concrete runs over the same
input stream, evaluated after four steps. -/
theorem c9_witness :
    ledVals (run (fun _ => 5) 0 4).2 = ledVals (run (fun _ => 5) 0 4).2 :=
  c9_output_determined_by_reads (fun _ => 5) (fun _ => 5) 0 0 (fun _ => rfl) 4

/-- Claim C10: every value ever written to the LED register is the arithmetic
shift of some switch value read in the same run, and its upper 16 bits are
either all zero or all one according to bit 31 of that switch value. -/
theorem c10_led_sign_extended (sw : Nat → Nat) (junk n w : Nat)
    (hw : w ∈ ledVals (run sw junk n).2) :
    ∃ v, v ∈ readVals (run sw junk n).2 ∧ w = sra32_16 v ∧
      ((Nat.testBit v 31 = false ∧ w >>> 16 = 0) ∨
       (Nat.testBit v 31 = true ∧ w >>> 16 = 0xFFFF)) := by
  rcases Nat.eq_zero_or_pos n with h0 | h1
  · subst h0
    simp [run, ledVals] at hw
  · obtain ⟨k, hk | hk | hk⟩ := phase_cases n h1
    · subst hk
      rw [run_loopTop] at hw ⊢
      rw [ledVals_iterTrace] at hw
      obtain ⟨i, hi, rfl⟩ := List.mem_map.1 hw
      refine ⟨sw (3*i+1) % 2^32, ?_, rfl, ?_⟩
      · rw [readVals_iterTrace]
        exact List.mem_map.2 ⟨i, hi, rfl⟩
      · exact sra32_16_upper _ (Nat.mod_lt _ (by norm_num))
    · subst hk
      rw [run_afterRead] at hw ⊢
      rw [ledVals_read_append, ledVals_iterTrace] at hw
      obtain ⟨i, hi, rfl⟩ := List.mem_map.1 hw
      refine ⟨sw (3*i+1) % 2^32, ?_, rfl, ?_⟩
      · rw [readVals_read_append, readVals_iterTrace]
        exact List.mem_append_left _ (List.mem_map.2 ⟨i, hi, rfl⟩)
      · exact sra32_16_upper _ (Nat.mod_lt _ (by norm_num))
    · subst hk
      rw [run_afterShift] at hw ⊢
      rw [ledVals_read_append, ledVals_iterTrace] at hw
      obtain ⟨i, hi, rfl⟩ := List.mem_map.1 hw
      refine ⟨sw (3*i+1) % 2^32, ?_, rfl, ?_⟩
      · rw [readVals_read_append, readVals_iterTrace]
        exact List.mem_append_left _ (List.mem_map.2 ⟨i, hi, rfl⟩)
      · exact sra32_16_upper _ (Nat.mod_lt _ (by norm_num))

/-- Claim C10 witness: the statement evaluated at the LED value `1` written
during a run over the constant `0x10000` input stream. -/
theorem c10_witness :
    ∃ v, v ∈ readVals (run (fun _ => 0x10000) 0 4).2 ∧ (1:Nat) = sra32_16 v ∧
      ((Nat.testBit v 31 = false ∧ (1:Nat) >>> 16 = 0) ∨
       (Nat.testBit v 31 = true ∧ (1:Nat) >>> 16 = 0xFFFF)) :=
  c10_led_sign_extended (fun _ => 0x10000) 0 4 1 (by decide)

end LedsSwitches
